import Mathlib

/-!
Verification of the EPG processor (`processar.py`) against its
natural-language specification.

The development shallowly embeds the code of `EPGProcessor`:

* `_apply_timeshift` (timestamp adjuster) — built on a model of
  `dateutil.parser.parse`, Python `datetime` calendar arithmetic and
  `strftime('%Y%m%d%H%M%S %z').strip()`;
* `_get_channel_offset` (offset resolver) with its expiry-clearing side
  effect, threading the mutable configuration explicitly;
* `_load_config` / `_convert_old_config` / `_save_config` over a small
  JSON value type;
* `_process_xml` / `_validate_xml` / `process` over an XML tree type,
  with the per-record loop expressed as a fold over the document-order
  list of programme records.

Machine dates are plain `Nat` components; a second count (seconds since
0001-01-01 00:00:00, the minimum of Python's `datetime`) plays the role
of the `datetime` instant, and the supported range mirrors
`datetime.min .. datetime.max` (years 1..9999).
-/

namespace EPG

/-! ## Calendar arithmetic (model of Python `datetime` + `timedelta`) -/

/-- Proleptic-Gregorian leap-year rule, as used by Python `datetime`. -/
def isLeap (y : Nat) : Bool := y % 4 == 0 && (y % 100 != 0 || y % 400 == 0)

/-- Days in month `mo` of year `y` (Python `calendar` convention).
For out-of-range months we default to 31; those are never produced for
valid inputs. -/
def daysInMonth (y mo : Nat) : Nat :=
  if mo = 2 then (if isLeap y then 29 else 28)
  else if mo = 4 ∨ mo = 6 ∨ mo = 9 ∨ mo = 11 then 30
  else 31

def daysInYear (y : Nat) : Nat := if isLeap y then 366 else 365

theorem daysInMonth_pos (y mo : Nat) : 0 < daysInMonth y mo := by
  unfold daysInMonth
  split
  · split <;> omega
  · split <;> omega

theorem daysInYear_pos (y : Nat) : 0 < daysInYear y := by
  unfold daysInYear; split <;> omega

/-- Total days in the `k` consecutive years `y, y+1, …, y+k-1`. -/
def ydb (y k : Nat) : Nat :=
  match k with
  | 0 => 0
  | k + 1 => daysInYear y + ydb (y + 1) k

/-- Total days in the `k` consecutive months `mo, mo+1, …, mo+k-1` of year `y`. -/
def mdb (y mo k : Nat) : Nat :=
  match k with
  | 0 => 0
  | k + 1 => daysInMonth y mo + mdb y (mo + 1) k

theorem ydb_add (y a b : Nat) : ydb y (a + b) = ydb y a + ydb (y + a) b := by
  induction a generalizing y with
  | zero => simp [ydb]
  | succ a ih =>
    have : a + 1 + b = (a + b) + 1 := by omega
    rw [this]
    simp only [ydb]
    rw [ih]
    have : y + 1 + a = y + (a + 1) := by omega
    rw [this]
    omega

theorem mdb_add (y mo a b : Nat) :
    mdb y mo (a + b) = mdb y mo a + mdb y (mo + a) b := by
  induction a generalizing mo with
  | zero => simp [mdb]
  | succ a ih =>
    have : a + 1 + b = (a + b) + 1 := by omega
    rw [this]
    simp only [mdb]
    rw [ih]
    have : mo + 1 + a = mo + (a + 1) := by omega
    rw [this]
    omega

/-- The 12 months of a year sum to the year length. -/
theorem mdb_year (y : Nat) : mdb y 1 12 = daysInYear y := by
  rcases h : isLeap y <;>
    simp [mdb, daysInMonth, daysInYear, h]

theorem ydb_pos (y k : Nat) (hk : 0 < k) : 0 < ydb y k := by
  cases k with
  | zero => omega
  | succ k =>
    have := daysInYear_pos y
    simp only [ydb]
    omega

theorem ydb_le_of_le (a b : Nat) (h : a ≤ b) : ydb 1 a ≤ ydb 1 b := by
  have h1 : b = a + (b - a) := by omega
  rw [h1, ydb_add]
  omega

theorem ydb_step (y : Nat) (h : 1 ≤ y) :
    ydb 1 (y - 1) + daysInYear y = ydb 1 y := by
  have h1 : y = (y - 1) + 1 := by omega
  conv_rhs => rw [h1]
  rw [ydb_add 1 (y - 1) 1]
  have h2 : 1 + (y - 1) = y := by omega
  simp [ydb, h2]

theorem mdb_step (y mo : Nat) (h : 1 ≤ mo) :
    mdb y 1 (mo - 1) + daysInMonth y mo = mdb y 1 mo := by
  have h1 : mo = (mo - 1) + 1 := by omega
  conv_rhs => rw [h1]
  rw [mdb_add y 1 (mo - 1) 1]
  have h2 : 1 + (mo - 1) = mo := by omega
  simp [mdb, h2]

/-- Closed form for the days in the years `1, …, y-1` (the day number of
Jan 1 of year `y`): `365` per year plus the proleptic-Gregorian leap
count.  Unlike the recursive `ydb`, it evaluates in constant depth, so
concrete timestamps can be checked by kernel reduction. -/
def yearsBefore (y : Nat) : Nat :=
  365 * (y - 1) + (y - 1) / 4 - (y - 1) / 100 + (y - 1) / 400

theorem isLeap_iff (y : Nat) :
    isLeap y = true ↔ (y % 4 = 0 ∧ (¬y % 100 = 0 ∨ y % 400 = 0)) := by
  simp [isLeap]

theorem yearsBefore_succ (y : Nat) (h : 1 ≤ y) :
    yearsBefore (y + 1) = yearsBefore y + daysInYear y := by
  unfold yearsBefore daysInYear
  simp only [Nat.add_sub_cancel]
  by_cases h4 : y % 4 = 0
  · by_cases h100 : y % 100 = 0
    · by_cases h400 : y % 400 = 0
      · have hl : isLeap y = true := (isLeap_iff y).mpr ⟨h4, Or.inr h400⟩
        rw [if_pos hl]
        have e4 : y / 4 = (y - 1) / 4 + 1 := by omega
        have e100 : y / 100 = (y - 1) / 100 + 1 := by omega
        have e400 : y / 400 = (y - 1) / 400 + 1 := by omega
        rw [e4, e100, e400]
        omega
      · have hl : ¬ isLeap y = true := by
          intro hc
          rcases (isLeap_iff y).mp hc with ⟨_, hor⟩
          rcases hor with hne | h400'
          · exact hne h100
          · exact h400 h400'
        rw [if_neg hl]
        have e4 : y / 4 = (y - 1) / 4 + 1 := by omega
        have e100 : y / 100 = (y - 1) / 100 + 1 := by omega
        have e400 : y / 400 = (y - 1) / 400 := by omega
        rw [e4, e100, e400]
        omega
    · have hl : isLeap y = true := (isLeap_iff y).mpr ⟨h4, Or.inl h100⟩
      rw [if_pos hl]
      have e4 : y / 4 = (y - 1) / 4 + 1 := by omega
      have e100 : y / 100 = (y - 1) / 100 := by omega
      have e400 : y / 400 = (y - 1) / 400 := by omega
      rw [e4, e100, e400]
      omega
  · have hl : ¬ isLeap y = true := by
      intro hc
      exact h4 ((isLeap_iff y).mp hc).1
    rw [if_neg hl]
    have e4 : y / 4 = (y - 1) / 4 := by omega
    have e100 : y / 100 = (y - 1) / 100 := by omega
    have e400 : y / 400 = (y - 1) / 400 := by omega
    rw [e4, e100, e400]
    omega

theorem yearsBefore_eq (y : Nat) (h : 1 ≤ y) : yearsBefore y = ydb 1 (y - 1) := by
  induction y with
  | zero => omega
  | succ y ih =>
    rcases Nat.lt_or_ge 1 (y + 1) with hgt | hle
    · have hy1 : 1 ≤ y := by omega
      rw [yearsBefore_succ y hy1, ih hy1]
      have h2 : y + 1 - 1 = y := by omega
      rw [h2]
      exact ydb_step y hy1
    · have : y = 0 := by omega
      subst this
      simp [yearsBefore, ydb]

/-- A date-time as parsed from the 14-digit broadcast format:
year, month, day, hour, minute, second. -/
structure DT where
  year : Nat
  month : Nat
  day : Nat
  hour : Nat
  minute : Nat
  second : Nat
deriving DecidableEq, Repr

/-- Validity exactly as enforced by the `datetime` constructor
(years 1..9999, real calendar day, 24h clock). -/
def DT.valid (dt : DT) : Bool :=
  1 ≤ dt.year && dt.year ≤ 9999 &&
  1 ≤ dt.month && dt.month ≤ 12 &&
  1 ≤ dt.day && dt.day ≤ daysInMonth dt.year dt.month &&
  dt.hour ≤ 23 && dt.minute ≤ 59 && dt.second ≤ 59

/-- Days since 0001-01-01 of the date part. -/
def toDays (dt : DT) : Nat :=
  yearsBefore dt.year + mdb dt.year 1 (dt.month - 1) + (dt.day - 1)

theorem toDays_eq (dt : DT) (h : 1 ≤ dt.year) :
    toDays dt = ydb 1 (dt.year - 1) + mdb dt.year 1 (dt.month - 1) + (dt.day - 1) := by
  unfold toDays
  rw [yearsBefore_eq dt.year h]

/-- Seconds since 0001-01-01 00:00:00 (the `datetime.min` of Python). -/
def toSecs (dt : DT) : Nat :=
  toDays dt * 86400 + dt.hour * 3600 + dt.minute * 60 + dt.second

/-- Largest representable second count: 9999-12-31 23:59:59,
mirroring `datetime.max` (at whole-second granularity). -/
def maxSecs : Nat := yearsBefore 10000 * 86400 - 1

theorem maxSecs_eq : maxSecs = ydb 1 9999 * 86400 - 1 := by
  unfold maxSecs
  rw [yearsBefore_eq 10000 (by omega)]

/-- Recover (year, day-within-year) from a day count, peeling years
upward from `y`. -/
def ofDaysYear (y n : Nat) : Nat × Nat :=
  if h : n < daysInYear y then (y, n)
  else ofDaysYear (y + 1) (n - daysInYear y)
termination_by n
decreasing_by
  have := daysInYear_pos y
  omega

/-- Recover (month, day) from a day-within-year count, peeling months
upward from `mo`. -/
def ofDaysMonth (y mo n : Nat) : Nat × Nat :=
  if h : n < daysInMonth y mo then (mo, n + 1)
  else ofDaysMonth y (mo + 1) (n - daysInMonth y mo)
termination_by n
decreasing_by
  have := daysInMonth_pos y mo
  omega

theorem daysInYear_ge (y : Nat) : 365 ≤ daysInYear y := by
  unfold daysInYear; split <;> omega

theorem daysInMonth_ge (y mo : Nat) : 28 ≤ daysInMonth y mo := by
  unfold daysInMonth
  split
  · split <;> omega
  · split <;> omega

/-- Structurally recursive (fuel-indexed) variant of `ofDaysYear`; the two
agree whenever the fuel is sufficient (`ofDaysYearF_eq`).  Unlike the
well-founded `ofDaysYear`, it reduces inside the kernel, so concrete
date-times can be checked by `decide`. -/
def ofDaysYearF : Nat → Nat → Nat → Nat × Nat
  | 0, y, n => (y, n)
  | fuel + 1, y, n =>
    if n < daysInYear y then (y, n)
    else ofDaysYearF fuel (y + 1) (n - daysInYear y)

/-- Fuel-indexed variant of `ofDaysMonth`, see `ofDaysYearF`. -/
def ofDaysMonthF : Nat → Nat → Nat → Nat → Nat × Nat
  | 0, _, mo, n => (mo, n + 1)
  | fuel + 1, y, mo, n =>
    if n < daysInMonth y mo then (mo, n + 1)
    else ofDaysMonthF fuel y (mo + 1) (n - daysInMonth y mo)

theorem ofDaysYearF_eq (fuel : Nat) : ∀ y n : Nat, n < 365 * fuel →
    ofDaysYearF fuel y n = ofDaysYear y n := by
  induction fuel with
  | zero => intro y n h; omega
  | succ fuel ih =>
    intro y n h
    rw [ofDaysYear]
    simp only [ofDaysYearF]
    by_cases hc : n < daysInYear y
    · rw [if_pos hc, dif_pos hc]
    · rw [if_neg hc, dif_neg hc]
      have h365 := daysInYear_ge y
      exact ih (y + 1) (n - daysInYear y) (by omega)

theorem ofDaysMonthF_eq (fuel : Nat) : ∀ y mo n : Nat, n < 28 * fuel →
    ofDaysMonthF fuel y mo n = ofDaysMonth y mo n := by
  induction fuel with
  | zero => intro y mo n h; omega
  | succ fuel ih =>
    intro y mo n h
    rw [ofDaysMonth]
    simp only [ofDaysMonthF]
    by_cases hc : n < daysInMonth y mo
    · rw [if_pos hc, dif_pos hc]
    · rw [if_neg hc, dif_neg hc]
      have h28 := daysInMonth_ge y mo
      exact ih y (mo + 1) (n - daysInMonth y mo) (by omega)

/-- Recover (year, day-within-year) from a day count.  Semantically this
is `ofDaysYear 1 n` (see `ofDays_eq`), but it first jumps close to the
final year using the closed form, so that evaluation peels only a
bounded number of years. -/
def ofDays (n : Nat) : Nat × Nat :=
  ofDaysYearF (n + 1) (n / 366 + 1) (n - yearsBefore (n / 366 + 1))

/-- Date-time from a second count (the inverse direction of `toSecs`). -/
def ofSecs (k : Nat) : DT :=
  let d := k / 86400
  let r := k % 86400
  let yr := ofDays d
  let md := ofDaysMonthF (yr.2 + 1) yr.1 1 yr.2
  ⟨yr.1, md.1, md.2, r / 3600, r % 3600 / 60, r % 60⟩

theorem ofDaysYear_spec (y k r : Nat) (h : r < daysInYear (y + k)) :
    ofDaysYear y (ydb y k + r) = (y + k, r) := by
  induction k generalizing y with
  | zero =>
    rw [ofDaysYear]
    simp only [ydb, Nat.zero_add]
    rw [dif_pos (by simpa using h)]
    simp
  | succ k ih =>
    rw [ofDaysYear]
    simp only [ydb]
    have hpos := daysInYear_pos y
    rw [dif_neg (by omega)]
    have harg : daysInYear y + ydb (y + 1) k + r - daysInYear y
        = ydb (y + 1) k + r := by omega
    rw [harg]
    have h' : r < daysInYear (y + 1 + k) := by
      have : y + 1 + k = y + (k + 1) := by omega
      rw [this]; exact h
    rw [ih (y + 1) h']
    congr 1
    omega

theorem ofDaysMonth_spec (y mo k r : Nat) (h : r < daysInMonth y (mo + k)) :
    ofDaysMonth y mo (mdb y mo k + r) = (mo + k, r + 1) := by
  induction k generalizing mo with
  | zero =>
    rw [ofDaysMonth]
    simp only [mdb, Nat.zero_add]
    rw [dif_pos (by simpa using h)]
    simp
  | succ k ih =>
    rw [ofDaysMonth]
    simp only [mdb]
    have hpos := daysInMonth_pos y mo
    rw [dif_neg (by omega)]
    have harg : daysInMonth y mo + mdb y (mo + 1) k + r - daysInMonth y mo
        = mdb y (mo + 1) k + r := by omega
    rw [harg]
    have h' : r < daysInMonth y (mo + 1 + k) := by
      have : mo + 1 + k = mo + (k + 1) := by omega
      rw [this]; exact h
    rw [ih (mo + 1) h']
    congr 1
    omega

/-- Fast-forwarding `ofDaysYear`: peeling `k` whole years at once. -/
theorem ofDaysYear_ff (k : Nat) : ∀ y n : Nat, ydb y k ≤ n →
    ofDaysYear y n = ofDaysYear (y + k) (n - ydb y k) := by
  induction k with
  | zero => intro y n _; simp [ydb]
  | succ k ih =>
    intro y n h
    simp only [ydb] at h
    have hpos := daysInYear_pos y
    have hyk : 0 ≤ ydb (y + 1) k := Nat.zero_le _
    rw [ofDaysYear]
    rw [dif_neg (by omega)]
    rw [ih (y + 1) (n - daysInYear y) (by omega)]
    have h1 : y + 1 + k = y + (k + 1) := by omega
    have h2 : n - daysInYear y - ydb (y + 1) k = n - ydb y (k + 1) := by
      simp only [ydb]
      omega
    rw [h1, h2]

/-- The jump used by `ofDays` never overshoots. -/
theorem yearsBefore_est (n : Nat) : yearsBefore (n / 366 + 1) ≤ n := by
  unfold yearsBefore
  omega

theorem ofDays_eq (n : Nat) : ofDays n = ofDaysYear 1 n := by
  have hyb : yearsBefore (n / 366 + 1) = ydb 1 (n / 366) := by
    rw [yearsBefore_eq (n / 366 + 1) (by omega)]
    simp
  have hle : ydb 1 (n / 366) ≤ n := by
    rw [← hyb]
    exact yearsBefore_est n
  unfold ofDays
  rw [ofDaysYearF_eq (n + 1) _ _ (by omega)]
  rw [hyb, ofDaysYear_ff (n / 366) 1 n hle]
  congr 1
  omega

/-- The map `ofSecs` expressed through the well-founded conversions, for proofs. -/
theorem ofSecs_eq (k : Nat) : ofSecs k =
    ⟨(ofDaysYear 1 (k / 86400)).1,
     (ofDaysMonth (ofDaysYear 1 (k / 86400)).1 1 (ofDaysYear 1 (k / 86400)).2).1,
     (ofDaysMonth (ofDaysYear 1 (k / 86400)).1 1 (ofDaysYear 1 (k / 86400)).2).2,
     k % 86400 / 3600, k % 86400 % 3600 / 60, k % 86400 % 60⟩ := by
  show (⟨(ofDays (k / 86400)).1,
     (ofDaysMonthF ((ofDays (k / 86400)).2 + 1) (ofDays (k / 86400)).1 1
       (ofDays (k / 86400)).2).1,
     (ofDaysMonthF ((ofDays (k / 86400)).2 + 1) (ofDays (k / 86400)).1 1
       (ofDays (k / 86400)).2).2,
     k % 86400 / 3600, k % 86400 % 3600 / 60, k % 86400 % 60⟩ : DT) = _
  rw [ofDaysMonthF_eq _ _ _ _ (by omega), ofDays_eq]

/-- Characterization of `ofDaysYear`: result year at least the start year,
remainder inside the year, and the consumed days reconstruct `n`. -/
theorem ofDaysYear_charact (n : Nat) : ∀ y : Nat,
    y ≤ (ofDaysYear y n).1 ∧
    (ofDaysYear y n).2 < daysInYear (ofDaysYear y n).1 ∧
    ydb y ((ofDaysYear y n).1 - y) + (ofDaysYear y n).2 = n := by
  induction n using Nat.strong_induction_on with
  | _ n ih =>
    intro y
    rw [ofDaysYear]
    by_cases h : n < daysInYear y
    · rw [dif_pos h]
      simp [ydb, h]
    · rw [dif_neg h]
      have hpos := daysInYear_pos y
      have hlt : n - daysInYear y < n := by omega
      obtain ⟨h1, h2, h3⟩ := ih (n - daysInYear y) hlt (y + 1)
      refine ⟨by omega, h2, ?_⟩
      set p := ofDaysYear (y + 1) (n - daysInYear y) with hp
      have hk : p.1 - y = (p.1 - (y + 1)) + 1 := by omega
      rw [hk]
      have : ydb y (p.1 - (y + 1) + 1) = daysInYear y + ydb (y + 1) (p.1 - (y + 1)) := by
        simp [ydb]
      rw [this]
      omega

/-- Characterization of `ofDaysMonth`, analogous to `ofDaysYear_charact`. -/
theorem ofDaysMonth_charact (y : Nat) (n : Nat) : ∀ mo : Nat,
    mo ≤ (ofDaysMonth y mo n).1 ∧
    1 ≤ (ofDaysMonth y mo n).2 ∧
    (ofDaysMonth y mo n).2 - 1 < daysInMonth y (ofDaysMonth y mo n).1 ∧
    mdb y mo ((ofDaysMonth y mo n).1 - mo) + ((ofDaysMonth y mo n).2 - 1) = n := by
  induction n using Nat.strong_induction_on with
  | _ n ih =>
    intro mo
    rw [ofDaysMonth]
    by_cases h : n < daysInMonth y mo
    · rw [dif_pos h]
      simp [mdb]
      omega
    · rw [dif_neg h]
      have hpos := daysInMonth_pos y mo
      have hlt : n - daysInMonth y mo < n := by omega
      obtain ⟨h1, h2, h3, h4⟩ := ih (n - daysInMonth y mo) hlt (mo + 1)
      refine ⟨by omega, h2, h3, ?_⟩
      set p := ofDaysMonth y (mo + 1) (n - daysInMonth y mo) with hp
      have hk : p.1 - mo = (p.1 - (mo + 1)) + 1 := by omega
      rw [hk]
      have : mdb y mo (p.1 - (mo + 1) + 1)
          = daysInMonth y mo + mdb y (mo + 1) (p.1 - (mo + 1)) := by
        simp [mdb]
      rw [this]
      omega

/-- For a valid date, the in-year day offset is below the year length. -/
theorem inYear_lt (dt : DT) (h : dt.valid = true) :
    mdb dt.year 1 (dt.month - 1) + (dt.day - 1) < daysInYear dt.year := by
  simp only [DT.valid, Bool.and_eq_true, decide_eq_true_eq] at h
  obtain ⟨⟨⟨⟨⟨⟨⟨⟨hy1, hy2⟩, hm1⟩, hm2⟩, hd1⟩, hd2⟩, hh⟩, hmi⟩, hs⟩ := h
  have hstep : mdb dt.year 1 (dt.month - 1) + daysInMonth dt.year dt.month
      = mdb dt.year 1 dt.month := by
    have h1 : dt.month = (dt.month - 1) + 1 := by omega
    conv_rhs => rw [h1]
    rw [mdb_add dt.year 1 (dt.month - 1) 1]
    have h2 : 1 + (dt.month - 1) = dt.month := by omega
    simp [mdb, h2]
  have hmono : mdb dt.year 1 dt.month ≤ mdb dt.year 1 12 := by
    have h1 : (12 : Nat) = dt.month + (12 - dt.month) := by omega
    rw [h1, mdb_add]
    omega
  rw [← mdb_year dt.year]
  omega

/-- The day count of a valid date stays below the total day count of years 1..9999. -/
theorem toDays_lt (dt : DT) (h : dt.valid = true) : toDays dt < ydb 1 9999 := by
  have hin := inYear_lt dt h
  simp only [DT.valid, Bool.and_eq_true, decide_eq_true_eq] at h
  obtain ⟨⟨⟨⟨⟨⟨⟨⟨hy1, hy2⟩, hm1⟩, hm2⟩, hd1⟩, hd2⟩, hh⟩, hmi⟩, hs⟩ := h
  have hstep : ydb 1 (dt.year - 1) + daysInYear dt.year = ydb 1 dt.year := by
    have h1 : dt.year = (dt.year - 1) + 1 := by omega
    conv_rhs => rw [h1]
    rw [ydb_add 1 (dt.year - 1) 1]
    have h2 : 1 + (dt.year - 1) = dt.year := by omega
    simp [ydb, h2]
  have hmono : ydb 1 dt.year ≤ ydb 1 9999 := by
    have h1 : (9999 : Nat) = dt.year + (9999 - dt.year) := by omega
    rw [h1, ydb_add]
    omega
  rw [toDays_eq dt (by omega)]
  omega

/-- Round trip: converting a valid date-time to seconds and back
recovers it. -/
theorem ofSecs_toSecs (dt : DT) (h : dt.valid = true) :
    ofSecs (toSecs dt) = dt := by
  have hin := inYear_lt dt h
  have hv := h
  simp only [DT.valid, Bool.and_eq_true, decide_eq_true_eq] at hv
  obtain ⟨⟨⟨⟨⟨⟨⟨⟨hy1, hy2⟩, hm1⟩, hm2⟩, hd1⟩, hd2⟩, hh⟩, hmi⟩, hs⟩ := hv
  rw [ofSecs_eq (toSecs dt)]
  have htod : dt.hour * 3600 + dt.minute * 60 + dt.second < 86400 := by omega
  have hdiv : toSecs dt / 86400 = toDays dt := by
    unfold toSecs
    omega
  have hmod : toSecs dt % 86400 = dt.hour * 3600 + dt.minute * 60 + dt.second := by
    unfold toSecs
    omega
  simp only [hdiv, hmod]
  have hyr : ofDaysYear 1 (toDays dt)
      = (dt.year, mdb dt.year 1 (dt.month - 1) + (dt.day - 1)) := by
    rw [toDays_eq dt (by omega)]
    have h1 : 1 + (dt.year - 1) = dt.year := by omega
    have h2 : mdb dt.year 1 (dt.month - 1) + (dt.day - 1) < daysInYear (1 + (dt.year - 1)) := by
      rw [h1]; exact hin
    have := ofDaysYear_spec 1 (dt.year - 1) (mdb dt.year 1 (dt.month - 1) + (dt.day - 1)) h2
    rw [← Nat.add_assoc] at this
    rw [this, h1]
  have hmd : ofDaysMonth dt.year 1 (mdb dt.year 1 (dt.month - 1) + (dt.day - 1))
      = (dt.month, dt.day) := by
    have h1 : 1 + (dt.month - 1) = dt.month := by omega
    have h2 : dt.day - 1 < daysInMonth dt.year (1 + (dt.month - 1)) := by
      rw [h1]; omega
    have := ofDaysMonth_spec dt.year 1 (dt.month - 1) (dt.day - 1) h2
    rw [this, h1]
    congr 1
    omega
  rw [hyr]
  dsimp only
  rw [hmd]
  dsimp only
  have h4 : (dt.hour * 3600 + dt.minute * 60 + dt.second) / 3600 = dt.hour := by omega
  have h5 : (dt.hour * 3600 + dt.minute * 60 + dt.second) % 3600 / 60 = dt.minute := by omega
  have h6 : (dt.hour * 3600 + dt.minute * 60 + dt.second) % 60 = dt.second := by omega
  rw [h4, h5, h6]

/-- Decomposition of `ofSecs` on the supported range: component bounds and
the reconstruction identity, packaged for reuse. -/
theorem ofSecs_charact (k : Nat) (hk : k ≤ maxSecs) :
    (ofSecs k).valid = true ∧ toSecs (ofSecs k) = k := by
  have hY : 0 < ydb 1 9999 := ydb_pos 1 9999 (by omega)
  have hd : k / 86400 < ydb 1 9999 := by
    rw [maxSecs_eq] at hk
    omega
  obtain ⟨hy1, hr, hrec⟩ := ofDaysYear_charact (k / 86400) 1
  set y := (ofDaysYear 1 (k / 86400)).1 with hydef
  set r := (ofDaysYear 1 (k / 86400)).2 with hrdef
  have hy2 : y ≤ 9999 := by
    by_contra hc
    push_neg at hc
    have hmono : ydb 1 9999 ≤ ydb 1 (y - 1) := ydb_le_of_le 9999 (y - 1) (by omega)
    omega
  obtain ⟨hmo1, hd1, hd2, hmrec⟩ := ofDaysMonth_charact y (r) 1
  set mo := (ofDaysMonth y 1 r).1 with hmodef
  set d := (ofDaysMonth y 1 r).2 with hddef
  have hmo2 : mo ≤ 12 := by
    by_contra hc
    push_neg at hc
    have hmono : mdb y 1 12 ≤ mdb y 1 (mo - 1) := by
      have h1 : mo - 1 = 12 + (mo - 13) := by omega
      rw [h1, mdb_add]
      omega
    rw [mdb_year y] at hmono
    omega
  have hrem : k % 86400 < 86400 := by omega
  have hof : ofSecs k
      = ⟨y, mo, d, k % 86400 / 3600, k % 86400 % 3600 / 60, k % 86400 % 60⟩ :=
    ofSecs_eq k
  constructor
  · rw [hof]
    show DT.valid ⟨y, mo, d, _, _, _⟩ = true
    simp only [DT.valid, Bool.and_eq_true, decide_eq_true_eq]
    refine ⟨⟨⟨⟨⟨⟨⟨⟨by omega, hy2⟩, hmo1⟩, hmo2⟩, hd1⟩, by omega⟩, by omega⟩, by omega⟩, by omega⟩
  · rw [hof]
    unfold toSecs toDays
    dsimp only
    rw [yearsBefore_eq y (by omega)]
    have htd : ydb 1 (y - 1) + mdb y 1 (mo - 1) + (d - 1) = k / 86400 := by omega
    rw [htd]
    omega

theorem toSecs_ofSecs (k : Nat) (hk : k ≤ maxSecs) : toSecs (ofSecs k) = k :=
  (ofSecs_charact k hk).2

theorem ofSecs_valid (k : Nat) (hk : k ≤ maxSecs) : (ofSecs k).valid = true :=
  (ofSecs_charact k hk).1

/-- Second count of 1000-01-01 00:00:00: beyond it, `strftime('%Y')` is a
plain 4-digit field on every platform. -/
def minPadSecs : Nat := yearsBefore 1000 * 86400

theorem minPadSecs_eq : minPadSecs = ydb 1 999 * 86400 := by
  unfold minPadSecs
  rw [yearsBefore_eq 1000 (by omega)]

/-- On the range at or above `minPadSecs`, `ofSecs` yields a year ≥ 1000. -/
theorem ofSecs_year_ge (k : Nat) (hk : minPadSecs ≤ k) : 1000 ≤ (ofSecs k).year := by
  rw [minPadSecs_eq] at hk
  have hd : ydb 1 999 ≤ k / 86400 := by omega
  obtain ⟨hy1, hr, hrec⟩ := ofDaysYear_charact (k / 86400) 1
  set y := (ofDaysYear 1 (k / 86400)).1 with hydef
  have hyear : (ofSecs k).year = y := by
    rw [ofSecs_eq k]
  rw [hyear]
  by_contra hc
  push_neg at hc
  have hstep := ydb_step y hy1
  have hmono : ydb 1 y ≤ ydb 1 999 := ydb_le_of_le y 999 (by omega)
  omega

/-- A valid date-time maps into the supported second range. -/
theorem toSecs_le (dt : DT) (h : dt.valid = true) : toSecs dt ≤ maxSecs := by
  have hd := toDays_lt dt h
  have hv := h
  simp only [DT.valid, Bool.and_eq_true, decide_eq_true_eq] at hv
  obtain ⟨⟨⟨⟨⟨⟨⟨⟨hy1, hy2⟩, hm1⟩, hm2⟩, hd1⟩, hd2⟩, hh⟩, hmi⟩, hs⟩ := hv
  unfold toSecs
  rw [maxSecs_eq]
  omega

/-- A valid date-time with year ≥ 1000 maps at or above `minPadSecs`. -/
theorem toSecs_ge (dt : DT) (h : dt.valid = true) (hy : 1000 ≤ dt.year) :
    minPadSecs ≤ toSecs dt := by
  simp only [DT.valid, Bool.and_eq_true, decide_eq_true_eq] at h
  obtain ⟨⟨⟨⟨⟨⟨⟨⟨hy1, hy2⟩, hm1⟩, hm2⟩, hd1⟩, hd2⟩, hh⟩, hmi⟩, hs⟩ := h
  have hmono : ydb 1 999 ≤ ydb 1 (dt.year - 1) := ydb_le_of_le 999 (dt.year - 1) (by omega)
  unfold toSecs
  rw [minPadSecs_eq, toDays_eq dt (by omega)]
  omega

/-! ## Digit strings: model of `strftime` fields and numeric parsing -/

/-- The ASCII character of a decimal digit. -/
def dchr (d : Nat) : Char := Char.ofNat (48 + d)

/-- Numeric value of an ASCII digit character (`int` on a digit). -/
def digToNat (c : Char) : Nat := c.toNat - 48

/-- Two-digit zero-padded decimal field (`%m`, `%d`, `%H`, `%M`, `%S`). -/
def p2 (n : Nat) : List Char := [dchr (n / 10 % 10), dchr (n % 10)]

/-- Four-digit zero-padded decimal field (`%Y`; for years ≥ 1000 this is
the platform-independent rendering). -/
def p4 (n : Nat) : List Char :=
  [dchr (n / 1000 % 10), dchr (n / 100 % 10), dchr (n / 10 % 10), dchr (n % 10)]

/-- Value of a most-significant-first digit string (`int(s)`). -/
def valDigits (cs : List Char) : Nat := cs.foldl (fun a c => a * 10 + digToNat c) 0

theorem dchr_isDigit (d : Nat) (h : d < 10) : (dchr d).isDigit = true := by
  interval_cases d <;> decide

theorem digToNat_dchr (d : Nat) (h : d < 10) : digToNat (dchr d) = d := by
  interval_cases d <;> decide

theorem dchr_ne_space (d : Nat) (h : d < 10) : dchr d ≠ ' ' := by
  interval_cases d <;> decide

theorem valDigits_p2 (n : Nat) (h : n < 100) : valDigits (p2 n) = n := by
  unfold valDigits p2
  simp only [List.foldl]
  rw [digToNat_dchr _ (by omega), digToNat_dchr _ (by omega)]
  omega

theorem valDigits_p4 (n : Nat) (h : n < 10000) : valDigits (p4 n) = n := by
  unfold valDigits p4
  simp only [List.foldl]
  rw [digToNat_dchr _ (by omega), digToNat_dchr _ (by omega),
    digToNat_dchr _ (by omega), digToNat_dchr _ (by omega)]
  omega

theorem p2_all_digit (n : Nat) : (p2 n).all Char.isDigit = true := by
  unfold p2
  simp [dchr_isDigit _ (Nat.mod_lt _ (by omega))]

theorem p4_all_digit (n : Nat) : (p4 n).all Char.isDigit = true := by
  unfold p4
  simp [dchr_isDigit _ (Nat.mod_lt _ (by omega))]

theorem take_app (A B : List Char) (n : Nat) (h : A.length = n) :
    (A ++ B).take n = A := by
  induction A generalizing n with
  | nil => simp at h; simp [h]
  | cons c A ih =>
    cases n with
    | zero => simp at h
    | succ n =>
      simp only [List.length_cons, Nat.succ.injEq] at h
      simp [List.take, ih n h]

theorem drop_app (A B : List Char) (n : Nat) (h : A.length = n) :
    (A ++ B).drop n = B := by
  induction A generalizing n with
  | nil => simp at h; simp [← h]
  | cons c A ih =>
    cases n with
    | zero => simp at h
    | succ n =>
      simp only [List.length_cons, Nat.succ.injEq] at h
      simp [List.drop, ih n h]

theorem dchr_mod_isDigit (x : Nat) : (dchr (x % 10)).isDigit = true :=
  dchr_isDigit _ (Nat.mod_lt _ (by omega))

theorem isDigit_ne_space (c : Char) (h : c.isDigit = true) : c ≠ ' ' := by
  intro hc
  rw [hc] at h
  simp [Char.isDigit] at h

/-! ## Model of `dateutil.parser.parse` and of `_apply_timeshift` -/

/-- Break a character list at the first space: the token before it and,
when a space occurs, the remainder after it (the tokenization step that
separates the date-time digits from a trailing timezone token). -/
def breakSp : List Char → List Char × Option (List Char)
  | [] => ([], none)
  | c :: rest =>
    if c = ' ' then ([], some rest)
    else
      let p := breakSp rest
      (c :: p.1, p.2)

theorem breakSp_no_space (A : List Char) (h : ∀ c ∈ A, c ≠ ' ') :
    breakSp A = (A, none) := by
  induction A with
  | nil => rfl
  | cons c A ih =>
    simp only [breakSp]
    rw [if_neg (h c (by simp)), ih (fun x hx => h x (by simp [hx]))]

theorem breakSp_space (A B : List Char) (h : ∀ c ∈ A, c ≠ ' ') :
    breakSp (A ++ ' ' :: B) = (A, some B) := by
  induction A with
  | nil => simp [breakSp]
  | cons c A ih =>
    show (if c = ' ' then (([] : List Char), some (A ++ ' ' :: B))
        else
          let p := breakSp (A ++ ' ' :: B)
          (c :: p.1, p.2)) = (c :: A, some B)
    rw [if_neg (h c (by simp)), ih (fun x hx => h x (by simp [hx]))]

/-- Model of `dateutil`'s `_parse_numeric_token` on a pure digit token of
length 8 (`YYYYMMDD`), 12 (`YYYYMMDDHHMM`) or 14 (`YYYYMMDDHHMMSS`) — the
three compact lengths it special-cases — followed by the `datetime`
constructor validation performed when the parse result is built.
Other tokens are mapped to a parse failure; the real parser accepts
further formats (ISO dates, month names, bare years, …), none of which
occur in the claims' input families, so universally quantified statements
about rejected inputs are read relative to this modelled domain. -/
def parseCompact (cs : List Char) : Option DT :=
  if (cs.length = 8 ∨ cs.length = 12 ∨ cs.length = 14) ∧ cs.all Char.isDigit then
    let y := valDigits (cs.take 4)
    let mo := valDigits ((cs.drop 4).take 2)
    let d := valDigits ((cs.drop 6).take 2)
    let h := if 8 < cs.length then valDigits ((cs.drop 8).take 2) else 0
    let mi := if 8 < cs.length then valDigits ((cs.drop 10).take 2) else 0
    let s := if 12 < cs.length then valDigits (cs.drop 12) else 0
    let dt : DT := ⟨y, mo, d, h, mi, s⟩
    if dt.valid then some dt else none
  else none

/-- Model of the timezone-token handling for a trailing token: a signed
4-digit `±HHMM` offset (accepted when its magnitude is below 24 hours, the
bound `datetime.utcoffset` enforces before `%z` can be formatted), or the
named zone `UTC` (a member of `parserinfo.UTCZONE`, parsed as offset 0).
Offsets are kept in seconds. -/
def parseTzTok (cs : List Char) : Option Int :=
  match cs with
  | c :: rest =>
    if (c = '+' ∨ c = '-') ∧ rest.length = 4 ∧ rest.all Char.isDigit then
      let hh := valDigits (rest.take 2)
      let mm := valDigits (rest.drop 2)
      let off : Nat := hh * 3600 + mm * 60
      if off < 86400 then some (if c = '-' then -(off : Int) else (off : Int))
      else none
    else if c :: rest = ['U', 'T', 'C'] then some 0
    else none
  | [] => none

/-- Model of `dateutil.parser.parse` on the relevant input families:
a compact digit timestamp, optionally followed by one space and a
timezone token.  Returns the naive date-time components plus the parsed
offset (in seconds) when the input carried a timezone. -/
def dateutilParse (cs : List Char) : Option (DT × Option Int) :=
  match (breakSp cs).2 with
  | none => (parseCompact (breakSp cs).1).map (fun dt => (dt, none))
  | some tzTok =>
    match parseCompact (breakSp cs).1, parseTzTok tzTok with
    | some dt, some off => some (dt, some off)
    | _, _ => none

/-- Model of `strftime('%z')` on an aware `datetime`: sign (`+` for
non-negative offsets, including zero), then `HHMM` from the absolute
offset.  Our offsets are whole numbers of minutes, so no seconds field
appears. -/
def zformat (o : Int) : List Char :=
  (if o < 0 then '-' else '+') :: (p2 (o.natAbs / 3600) ++ p2 (o.natAbs % 3600 / 60))

/-- Model of `strftime('%Y%m%d%H%M%S')` on a date-time. -/
def renderDT (dt : DT) : List Char :=
  p4 dt.year ++ (p2 dt.month ++ (p2 dt.day ++ (p2 dt.hour ++ (p2 dt.minute ++ p2 dt.second))))

/-- Model of `strftime('%Y%m%d%H%M%S %z').strip()`: for a naive date-time `%z` is
empty and the trailing space is stripped away; for an aware one the
formatted offset follows a single space. -/
def render (dt : DT) (tz : Option Int) : List Char :=
  match tz with
  | none => renderDT dt
  | some o => renderDT dt ++ ' ' :: zformat o

/-- Offsets as produced by the timezone parser: whole minutes, magnitude
below 24 hours. -/
def tzGood : Option Int → Prop
  | none => True
  | some o => o.natAbs < 86400 ∧ o.natAbs % 60 = 0

instance : (t : Option Int) → Decidable (tzGood t)
  | none => isTrue trivial
  | some _ => inferInstanceAs (Decidable (_ ∧ _))

/-- The body of `EPGProcessor._apply_timeshift`'s `try` block: parse, add
`timedelta(seconds=offset_seconds)` (an `OverflowError` outside the
supported `datetime` range), re-render.  `none` is the exception path. -/
def timeshiftBody (cs : List Char) (n : Int) : Option (List Char) :=
  match dateutilParse cs with
  | none => none
  | some (dt, tz) =>
    let t : Int := (toSecs dt : Int) + n
    if 0 ≤ t ∧ t ≤ (maxSecs : Int) then some (render (ofSecs t.toNat) tz)
    else none

/-- Model of `EPGProcessor._apply_timeshift`: every exception in the body is caught
and the raw input string is returned unchanged. -/
def _apply_timeshift (time_str : String) (offset_seconds : Int) : String :=
  match timeshiftBody time_str.toList offset_seconds with
  | some out => String.mk out
  | none => time_str

theorem drop_app_add (A B : List Char) (n k : Nat) (h : A.length = n) :
    (A ++ B).drop (n + k) = B.drop k := by
  induction A generalizing n with
  | nil => simp at h; simp [← h]
  | cons c A ih =>
    cases n with
    | zero => simp at h
    | succ n =>
      simp only [List.length_cons, Nat.succ.injEq] at h
      have harith : n + 1 + k = (n + k) + 1 := by omega
      rw [harith]
      simp [List.drop, ih n h]

theorem renderDT_length (dt : DT) : (renderDT dt).length = 14 := by
  simp [renderDT, p4, p2]

theorem renderDT_all_digit (dt : DT) : (renderDT dt).all Char.isDigit = true := by
  simp [renderDT, p4, p2, dchr_mod_isDigit]

theorem renderDT_no_space (dt : DT) : ∀ c ∈ renderDT dt, c ≠ ' ' := by
  intro c hc
  exact isDigit_ne_space c (List.all_eq_true.mp (renderDT_all_digit dt) c hc)

/-- Parsing the 14-digit rendering of a valid date-time recovers it. -/
theorem parseCompact_renderDT (dt : DT) (hv : dt.valid = true) :
    parseCompact (renderDT dt) = some dt := by
  have hb := hv
  simp only [DT.valid, Bool.and_eq_true, decide_eq_true_eq] at hb
  obtain ⟨⟨⟨⟨⟨⟨⟨⟨hy1, hy2⟩, hm1⟩, hm2⟩, hd1⟩, hd2⟩, hh⟩, hmi⟩, hs⟩ := hb
  have hd31 : dt.day ≤ 31 := by
    refine le_trans hd2 ?_
    unfold daysInMonth
    split
    · split <;> omega
    · split <;> omega
  have hlen := renderDT_length dt
  have hdig := renderDT_all_digit dt
  have ht0 : (renderDT dt).take 4 = p4 dt.year :=
    take_app _ _ 4 (by simp [p4])
  have ht4 : (renderDT dt).drop 4
      = p2 dt.month ++ (p2 dt.day ++ (p2 dt.hour ++ (p2 dt.minute ++ p2 dt.second))) :=
    drop_app _ _ 4 (by simp [p4])
  have ht6 : (renderDT dt).drop 6
      = p2 dt.day ++ (p2 dt.hour ++ (p2 dt.minute ++ p2 dt.second)) := by
    show (renderDT dt).drop (4 + 2) = _
    unfold renderDT
    rw [drop_app_add _ _ 4 2 (by simp [p4]), drop_app _ _ 2 (by simp [p2])]
  have ht8 : (renderDT dt).drop 8
      = p2 dt.hour ++ (p2 dt.minute ++ p2 dt.second) := by
    show (renderDT dt).drop (4 + 4) = _
    unfold renderDT
    rw [drop_app_add _ _ 4 4 (by simp [p4])]
    show List.drop (2 + 2) _ = _
    rw [drop_app_add _ _ 2 2 (by simp [p2]), drop_app _ _ 2 (by simp [p2])]
  have ht10 : (renderDT dt).drop 10
      = p2 dt.minute ++ p2 dt.second := by
    show (renderDT dt).drop (4 + 6) = _
    unfold renderDT
    rw [drop_app_add _ _ 4 6 (by simp [p4])]
    show List.drop (2 + 4) _ = _
    rw [drop_app_add _ _ 2 4 (by simp [p2])]
    show List.drop (2 + 2) _ = _
    rw [drop_app_add _ _ 2 2 (by simp [p2]), drop_app _ _ 2 (by simp [p2])]
  have ht12 : (renderDT dt).drop 12 = p2 dt.second := by
    show (renderDT dt).drop (4 + 8) = _
    unfold renderDT
    rw [drop_app_add _ _ 4 8 (by simp [p4])]
    show List.drop (2 + 6) _ = _
    rw [drop_app_add _ _ 2 6 (by simp [p2])]
    show List.drop (2 + 4) _ = _
    rw [drop_app_add _ _ 2 4 (by simp [p2])]
    show List.drop (2 + 2) _ = _
    rw [drop_app_add _ _ 2 2 (by simp [p2]), drop_app _ _ 2 (by simp [p2])]
  rw [parseCompact]
  rw [if_pos ⟨Or.inr (Or.inr hlen), hdig⟩]
  simp only [hlen, ht0, ht4, ht6, ht8, ht10, ht12]
  rw [take_app _ _ 2 (by simp [p2]), take_app _ _ 2 (by simp [p2]),
    take_app _ _ 2 (by simp [p2]), take_app _ _ 2 (by simp [p2])]
  have h814 : (8 : Nat) < 14 := by omega
  have h1214 : (12 : Nat) < 14 := by omega
  simp only [if_pos h814, if_pos h1214]
  rw [valDigits_p4 _ (by omega), valDigits_p2 _ (by omega), valDigits_p2 _ (by omega),
    valDigits_p2 _ (by omega), valDigits_p2 _ (by omega), valDigits_p2 _ (by omega)]
  have heta : (⟨dt.year, dt.month, dt.day, dt.hour, dt.minute, dt.second⟩ : DT) = dt := rfl
  rw [heta, hv]
  simp

/-- Parsing the `%z` rendering of a parser-produced offset recovers it. -/
theorem parseTzTok_zformat (o : Int) (h1 : o.natAbs < 86400) (h2 : o.natAbs % 60 = 0) :
    parseTzTok (zformat o) = some o := by
  have hcond : ((p2 (o.natAbs / 3600) ++ p2 (o.natAbs % 3600 / 60)).length = 4
      ∧ (p2 (o.natAbs / 3600) ++ p2 (o.natAbs % 3600 / 60)).all Char.isDigit) := by
    constructor
    · simp [p2]
    · simp [p2, dchr_mod_isDigit]
  have htake : (p2 (o.natAbs / 3600) ++ p2 (o.natAbs % 3600 / 60)).take 2
      = p2 (o.natAbs / 3600) := take_app _ _ 2 (by simp [p2])
  have hdrop : (p2 (o.natAbs / 3600) ++ p2 (o.natAbs % 3600 / 60)).drop 2
      = p2 (o.natAbs % 3600 / 60) := drop_app _ _ 2 (by simp [p2])
  have hoff : valDigits (p2 (o.natAbs / 3600)) * 3600
      + valDigits (p2 (o.natAbs % 3600 / 60)) * 60 = o.natAbs := by
    rw [valDigits_p2 _ (by omega), valDigits_p2 _ (by omega)]
    omega
  by_cases ho : o < 0
  · have hz : zformat o
        = '-' :: (p2 (o.natAbs / 3600) ++ p2 (o.natAbs % 3600 / 60)) := by
      unfold zformat
      rw [if_pos ho]
    rw [hz]
    show (if ('-' = '+' ∨ '-' = '-') ∧ _ then _ else _) = _
    rw [if_pos ⟨Or.inr rfl, hcond⟩]
    simp only [htake, hdrop]
    rw [if_pos (by omega : valDigits (p2 (o.natAbs / 3600)) * 3600
      + valDigits (p2 (o.natAbs % 3600 / 60)) * 60 < 86400)]
    rw [Option.some.injEq]
    split
    · omega
    · rename_i hcontra
      exact absurd (by trivial) hcontra
  · have hz : zformat o
        = '+' :: (p2 (o.natAbs / 3600) ++ p2 (o.natAbs % 3600 / 60)) := by
      unfold zformat
      rw [if_neg ho]
    rw [hz]
    show (if ('+' = '+' ∨ '+' = '-') ∧ _ then _ else _) = _
    rw [if_pos ⟨Or.inl rfl, hcond⟩]
    simp only [htake, hdrop]
    rw [if_pos (by omega : valDigits (p2 (o.natAbs / 3600)) * 3600
      + valDigits (p2 (o.natAbs % 3600 / 60)) * 60 < 86400)]
    rw [Option.some.injEq]
    split
    · rename_i hcontra
      simp at hcontra
    · omega

/-- Parsing the full rendering (digits plus optional token) of a valid
date-time recovers the components. -/
theorem dateutilParse_render (dt : DT) (tz : Option Int)
    (hv : dt.valid = true) (htz : tzGood tz) :
    dateutilParse (render dt tz) = some (dt, tz) := by
  cases tz with
  | none =>
    unfold render dateutilParse
    rw [breakSp_no_space _ (renderDT_no_space dt)]
    simp [parseCompact_renderDT dt hv]
  | some o =>
    obtain ⟨h1, h2⟩ := htz
    unfold render dateutilParse
    rw [breakSp_space _ _ (renderDT_no_space dt)]
    simp [parseCompact_renderDT dt hv, parseTzTok_zformat o h1 h2]

/-- On an in-range shift, the adjuster body succeeds and produces the
rendering of the shifted date-time with the same timezone. -/
theorem timeshiftBody_render (dt : DT) (tz : Option Int) (n : Int)
    (hv : dt.valid = true) (htz : tzGood tz)
    (h0 : 0 ≤ (toSecs dt : Int) + n) (h1 : (toSecs dt : Int) + n ≤ (maxSecs : Int)) :
    timeshiftBody (render dt tz) n
      = some (render (ofSecs ((toSecs dt : Int) + n).toNat) tz) := by
  unfold timeshiftBody
  rw [dateutilParse_render dt tz hv htz]
  simp only
  rw [if_pos ⟨h0, h1⟩]

/-! ## Configuration model: `_get_channel_offset` and the JSON layer -/

/-- Model of `datetime.fromisoformat` on whole-second naive ISO strings
`YYYY-MM-DD{T, }HH:MM:SS`, producing the corresponding second count.
Other inputs (malformed strings; fractional or offset-bearing forms,
which none of the claims' configurations use) are mapped to a parse
failure, which in the source is an uncaught `ValueError`. -/
def fromisoformat (s : String) : Option Nat :=
  match s.toList with
  | [y1, y2, y3, y4, s1, m1, m2, s2, d1, d2, sT, h1, h2, c1, mi1, mi2, c2, ss1, ss2] =>
    if (s1 = '-' ∧ s2 = '-' ∧ (sT = 'T' ∨ sT = ' ') ∧ c1 = ':' ∧ c2 = ':')
        ∧ ([y1, y2, y3, y4, m1, m2, d1, d2, h1, h2, mi1, mi2, ss1, ss2].all Char.isDigit) then
      let dt : DT := ⟨valDigits [y1, y2, y3, y4], valDigits [m1, m2], valDigits [d1, d2],
        valDigits [h1, h2], valDigits [mi1, mi2], valDigits [ss1, ss2]⟩
      if dt.valid then some (toSecs dt) else none
    else none
  | _ => none

/-- The `timeshift` section of the configuration dictionary, as read and
mutated by `_get_channel_offset` (`default_offset_seconds`,
`per_channel`, `force_offset`, `force_offset_expiry`). -/
structure TimeshiftCfg where
  default_offset_seconds : Int
  per_channel : List (String × Int)
  force_offset : Option Int
  force_offset_expiry : Option String
deriving DecidableEq, Repr

/-- The per-channel / default part of the resolution
(`if channel_id in per_channel … return default_offset_seconds`). -/
def lookupOffset (cfg : TimeshiftCfg) (channel_id : String) : Int :=
  match cfg.per_channel.find? (fun p => p.1 == channel_id) with
  | some p => p.2
  | none => cfg.default_offset_seconds

/-- Model of `EPGProcessor._get_channel_offset`.  The source tests
`force_offset is not None and force_expiry` — string truthiness, so an
empty expiry string skips the forced layer without clearing anything.
`datetime.fromisoformat` on an unparseable expiry raises an uncaught
`ValueError`, modelled by `none`; `datetime.now()` is the `now`
parameter.  The (possibly expiry-cleared) configuration is returned
alongside the offset, mirroring the in-place mutation of `self.config`. -/
def _get_channel_offset (cfg : TimeshiftCfg) (now : Nat) (channel_id : String) :
    Option (Int × TimeshiftCfg) :=
  match cfg.force_offset, cfg.force_offset_expiry with
  | some force_offset, some force_expiry =>
    if force_expiry = "" then some (lookupOffset cfg channel_id, cfg)
    else
      match fromisoformat force_expiry with
      | none => none
      | some expiry_time =>
        if now < expiry_time then some (force_offset, cfg)
        else
          let cfg' := { cfg with force_offset := none, force_offset_expiry := none }
          some (lookupOffset cfg' channel_id, cfg')
  | _, _ => some (lookupOffset cfg channel_id, cfg)

/-- Well-formedness of the timeshift configuration: when both forced
fields are set, the expiry string is empty or parseable.  Exactly the
configurations on which offset resolution cannot raise. -/
def cfgWF (cfg : TimeshiftCfg) : Bool :=
  match cfg.force_offset, cfg.force_offset_expiry with
  | some _, some fe => fe == "" || (fromisoformat fe).isSome
  | _, _ => true

theorem _get_channel_offset_total (cfg : TimeshiftCfg) (now : Nat) (ch : String)
    (h : cfgWF cfg = true) :
    ∃ off cfg', _get_channel_offset cfg now ch = some (off, cfg') ∧ cfgWF cfg' = true := by
  unfold _get_channel_offset
  split
  · rename_i fo fe heq1 heq2
    unfold cfgWF at h
    rw [heq1, heq2] at h
    simp only [Bool.or_eq_true, beq_iff_eq, Option.isSome_iff_exists] at h
    by_cases hemp : fe = ""
    · rw [if_pos hemp]
      refine ⟨_, _, rfl, ?_⟩
      unfold cfgWF
      rw [heq1, heq2]
      simp [hemp]
    · rw [if_neg hemp]
      rcases h with h | ⟨v, hv⟩
      · exact absurd h hemp
      · rw [hv]
        dsimp only
        by_cases hnow : now < v
        · rw [if_pos hnow]
          refine ⟨_, _, rfl, ?_⟩
          unfold cfgWF
          rw [heq1, heq2]
          simp [hv]
        · rw [if_neg hnow]
          exact ⟨_, _, rfl, rfl⟩
  · exact ⟨_, _, rfl, h⟩

/-- JSON values, as handled by `json.load` / `json.dump`. -/
inductive Jv where
  | jnull : Jv
  | jbool : Bool → Jv
  | jnum : Int → Jv
  | jstr : String → Jv
  | jarr : List Jv → Jv
  | jobj : List (String × Jv) → Jv

/-- Dictionary read (`config[key]` / `key in config`). -/
def jGet (j : Jv) (k : String) : Option Jv :=
  match j with
  | .jobj fields =>
    match fields.find? (fun p => p.1 == k) with
    | some p => some p.2
    | none => none
  | _ => none

/-- Dictionary assignment on the field list: replace an existing key in
place, else append (Python `dict` insertion-order semantics). -/
def objSet : List (String × Jv) → String → Jv → List (String × Jv)
  | [], k, v => [(k, v)]
  | (k', v') :: rest, k, v =>
    if k' == k then (k', v) :: rest else (k', v') :: objSet rest k v

/-- Dictionary assignment (`config[key] = value`); never applied to
non-objects by the modelled code. -/
def jSet (j : Jv) (k : String) (v : Jv) : Jv :=
  match j with
  | .jobj fields => .jobj (objSet fields k v)
  | _ => j

def jHas (j : Jv) (k : String) : Bool := (jGet j k).isSome

/-- Model of `EPGProcessor._get_default_config`, with `datetime.now().isoformat()`
passed in as `now_iso`. -/
def _get_default_config (now_iso : String) : Jv :=
  .jobj [
    ("app_version", .jstr "1.1.0"),
    ("last_update", .jstr now_iso),
    ("timeshift", .jobj [
      ("default_offset_seconds", .jnum 30),
      ("per_channel", .jobj []),
      ("force_offset", .jnull),
      ("force_offset_expiry", .jnull)]),
    ("source", .jobj [
      ("url", .jstr "https://epgshare01.online/epgshare01/epg_ripper_PT1.xml.gz"),
      ("backup_urls", .jarr []),
      ("timeout", .jnum 300),
      ("retry_attempts", .jnum 3)]),
    ("processing", .jobj [
      ("enable_cache", .jbool true),
      ("cache_duration_hours", .jnum 24),
      ("validate_xml", .jbool true),
      ("generate_metrics", .jbool true),
      ("compress_output", .jbool false)]),
    ("output", .jobj [
      ("filename", .jstr "epg_processed.xml"),
      ("keep_backups", .jnum 3),
      ("include_metadata", .jbool true)]),
    ("scheduling", .jobj [
      ("auto_run", .jbool true),
      ("run_time", .jstr "06:00"),
      ("timezone", .jstr "Europe/Lisbon")]),
    ("android_integration", .jobj [
      ("api_enabled", .jbool false),
      ("api_port", .jnum 8080),
      ("api_key", .jnull),
      ("allow_remote_config", .jbool true),
      ("sync_interval_minutes", .jnum 60)]),
    ("logging", .jobj [
      ("level", .jstr "INFO"),
      ("keep_logs_days", .jnum 30),
      ("detailed_metrics", .jbool true)]),
    ("profiles", .jobj [
      ("default", .jobj [
        ("name", .jstr "Configuração Padrão"),
        ("active", .jbool true),
        ("description", .jstr "Perfil padrão para processamento automático")])])]

/-- Model of `EPGProcessor._convert_old_config`: start from the default
configuration and migrate the legacy top-level fields found in the old
one.  (The source then persists the result via `_save_config`.) -/
def _convert_old_config (now_iso : String) (old_config : Jv) : Jv :=
  let nc := _get_default_config now_iso
  let nc := match jGet old_config "offset_seconds" with
    | some v =>
      jSet nc "timeshift" (jSet ((jGet nc "timeshift").getD .jnull) "default_offset_seconds" v)
    | none => nc
  let nc := match jGet old_config "source_url" with
    | some v => jSet nc "source" (jSet ((jGet nc "source").getD .jnull) "url" v)
    | none => nc
  let nc := match jGet old_config "last_update" with
    | some v => jSet nc "last_update" v
    | none => nc
  let nc := match jGet old_config "app_version" with
    | some v => jSet nc "app_version" v
    | none => nc
  nc

/-- Model of `EPGProcessor._load_config`.  The outcome of reading and JSON-parsing
the file is an input: `none` models `FileNotFoundError`, `some none`
models `json.JSONDecodeError`, and `some (some config)` the parsed
object.  A legacy shape (`offset_seconds` present, `timeshift` absent)
is converted; both failure modes fall back to the default
configuration. -/
def _load_config (now_iso : String) (file : Option (Option Jv)) : Jv :=
  match file with
  | none => _get_default_config now_iso
  | some none => _get_default_config now_iso
  | some (some config) =>
    if jHas config "offset_seconds" && !(jHas config "timeshift") then
      _convert_old_config now_iso config
    else config

/-- Model of `EPGProcessor._save_config`: the JSON object written to disk, which
is the configuration stamped with the current time as `last_update`. -/
def _save_config (now_iso : String) (config : Jv) : Jv :=
  jSet config "last_update" (.jstr now_iso)

/-! ## XML processing: `_process_xml`, `_validate_xml`, `process` -/

/-- The run metrics touched by XML processing (`self.metrics`): the
`channels_processed` and `programmes_processed` counters and the
`errors` list. -/
structure Metrics where
  channels_processed : Nat
  programmes_processed : Nat
  errors : List String
deriving DecidableEq, Repr

/-- An element of the parsed XML tree (tag, attributes, children). -/
inductive XmlNode where
  | mk (tag : String) (attrs : List (String × String)) (children : List XmlNode)

def XmlNode.tag : XmlNode → String
  | .mk t _ _ => t

def XmlNode.attrs : XmlNode → List (String × String)
  | .mk _ a _ => a

def XmlNode.children : XmlNode → List XmlNode
  | .mk _ _ c => c

/-- Attribute read, `element.get(key)`. -/
def attrGet (attrs : List (String × String)) (k : String) : Option String :=
  match attrs.find? (fun p => p.1 == k) with
  | some p => some p.2
  | none => none

/-- Attribute write, `element.set(key, value)`: replace in place, else append. -/
def attrSet : List (String × String) → String → String → List (String × String)
  | [], k, v => [(k, v)]
  | (k', v') :: rest, k, v =>
    if k' == k then (k', v) :: rest else (k', v') :: attrSet rest k v

mutual
/-- The attribute lists of the nodes with tag `t` in the subtree rooted at
`n`, the node itself included, in document (pre-)order. -/
def collectTagN (t : String) (n : XmlNode) : List (List (String × String)) :=
  match n with
  | .mk tg attrs ch => (if tg == t then [attrs] else []) ++ collectTagL t ch

/-- Model of `findall` with a descendant path over a child list: all descendants with tag
`t`, in document order. -/
def collectTagL (t : String) : List XmlNode → List (List (String × String))
  | [] => []
  | n :: ns => collectTagN t n ++ collectTagL t ns
end

/-- The body of the per-programme loop of `_process_xml`: read the
`channel` attribute (default `''`), resolve the offset (possibly
mutating the configuration, possibly raising), and shift the `start` and
`stop` attributes when present. -/
def progStep (now : Nat) (cfg : TimeshiftCfg) (attrs : List (String × String)) :
    Option (List (String × String) × TimeshiftCfg) :=
  let channel_id := (attrGet attrs "channel").getD ""
  match _get_channel_offset cfg now channel_id with
  | none => none
  | some (offset, cfg') =>
    let attrs1 := match attrGet attrs "start" with
      | some v => attrSet attrs "start" (_apply_timeshift v offset)
      | none => attrs
    let attrs2 := match attrGet attrs1 "stop" with
      | some v => attrSet attrs1 "stop" (_apply_timeshift v offset)
      | none => attrs1
    some (attrs2, cfg')

/-- The per-programme loop: thread the configuration and the
`programmes_processed` counter through the records in document order.
An exception in one step (`none`) aborts the loop, keeping the counter
and configuration as they stood — there is no per-record handler, the
enclosing `try` of `_process_xml` is the only one. -/
def progFold (cfg : TimeshiftCfg) (now : Nat) (cnt : Nat) :
    List (List (String × String)) →
      (TimeshiftCfg × Nat) × Option (List (List (String × String)))
  | [] => ((cfg, cnt), some [])
  | a :: as =>
    match progStep now cfg a with
    | none => ((cfg, cnt), none)
    | some (a', cfg') =>
      match progFold cfg' now (cnt + 1) as with
      | (st, some rest) => (st, some (a' :: rest))
      | (st, none) => (st, none)

mutual
/-- Write the processed attribute lists back onto the programme nodes,
consuming them in the same document order in which they were collected
(this models the in-place mutation of the shared nodes). -/
def rebuildN (n : XmlNode) (rs : List (List (String × String))) :
    XmlNode × List (List (String × String)) :=
  match n with
  | .mk tg attrs ch =>
    if tg == "programme" then
      match rs with
      | r :: rs' =>
        let p := rebuildL ch rs'
        (.mk tg r p.1, p.2)
      | [] =>
        let p := rebuildL ch []
        (.mk tg attrs p.1, p.2)
    else
      let p := rebuildL ch rs
      (.mk tg attrs p.1, p.2)

def rebuildL (ns : List XmlNode) (rs : List (List (String × String))) :
    List XmlNode × List (List (String × String)) :=
  match ns with
  | [] => ([], rs)
  | n :: ns' =>
    let p := rebuildN n rs
    let q := rebuildL ns' p.2
    (p.1 :: q.1, q.2)
end

mutual
/-- Insert the `processing` element into the first descendant `metadata`
element (document order), if any — `root.find('.//metadata')` followed by
`SubElement`. -/
def insMetaN (p : XmlNode) (n : XmlNode) : Option XmlNode :=
  match n with
  | .mk tg attrs ch =>
    if tg == "metadata" then some (.mk tg attrs (ch ++ [p]))
    else
      match insMetaL p ch with
      | some ch' => some (.mk tg attrs ch')
      | none => none

def insMetaL (p : XmlNode) (ns : List XmlNode) : Option (List XmlNode) :=
  match ns with
  | [] => none
  | n :: rest =>
    match insMetaN p n with
    | some n' => some (n' :: rest)
    | none =>
      match insMetaL p rest with
      | some rest' => some (n :: rest')
      | none => none
end

/-- Model of `EPGProcessor._add_metadata`: find or create a `metadata` element and
append a `processing` element carrying processor name, version,
timestamp and the `timeshift_applied` flag. -/
def add_metadata (version now_iso : String) (root : XmlNode) : XmlNode :=
  let process_info := XmlNode.mk "processing"
    [("processor", "EPG-Processor"), ("version", version),
     ("timestamp", now_iso), ("timeshift_applied", "true")] []
  match insMetaL process_info root.children with
  | some ch' => .mk root.tag root.attrs ch'
  | none => .mk root.tag root.attrs (root.children ++ [.mk "metadata" [] [process_info]])

/-- Model of `EPGProcessor._validate_xml`: the source function only re-parses the
string `etree.tostring` just produced (`etree.fromstring`) — a
well-formedness check that succeeds for every string serialized from an
element tree, so on the model's domain it is identically `true`.  It
performs no root-tag, channel-count or programme-count check. -/
def _validate_xml (doc : XmlNode) : Bool :=
  match doc with
  | .mk _ _ _ => true

/-- Model of `EPGProcessor._process_xml`.  The gzip detection and XML parse of the
raw bytes are summarized by the `input` argument (`.error` = any
exception while decompressing/parsing).  Channels are counted, then each
programme record is processed in document order; the mutated tree gets
the optional metadata element; the validation result is computed and
discarded (only a failure would append to `errors`, and it cannot
occur).  Any exception reaches the single function-level `except`, which
records the error and returns `None` — counters and configuration
mutations made before the exception persist. -/
def _process_xml (cfg : TimeshiftCfg) (include_metadata validate_flag : Bool)
    (version now_iso : String) (now : Nat)
    (input : Except String XmlNode) (m : Metrics) :
    Option XmlNode × Metrics × TimeshiftCfg :=
  match input with
  | .error e => (none, { m with errors := m.errors ++ [e] }, cfg)
  | .ok root =>
    let m1 := { m with channels_processed :=
      m.channels_processed + (collectTagL "channel" root.children).length }
    let progs := collectTagL "programme" root.children
    let res := progFold cfg now 0 progs
    let m2 := { m1 with programmes_processed := m1.programmes_processed + res.1.2 }
    match res.2 with
    | none =>
      (none, { m2 with errors := m2.errors ++ ["offset resolution error"] }, res.1.1)
    | some newAttrs =>
      let root1 := XmlNode.mk root.tag root.attrs (rebuildL root.children newAttrs).1
      let root2 := if include_metadata then add_metadata version now_iso root1 else root1
      let m3 := if validate_flag && !(_validate_xml root2) then
          { m2 with errors := m2.errors ++ ["XML inválido"] }
        else m2
      (some root2, m3, res.1.1)

theorem _validate_xml_true (doc : XmlNode) : _validate_xml doc = true := by
  cases doc
  rfl

/-- On a well-formed configuration the per-programme loop never raises:
every record is visited, the counter advances once per record, and the
configuration stays well-formed. -/
theorem progFold_total (now : Nat) (l : List (List (String × String))) :
    ∀ (cfg : TimeshiftCfg) (cnt : Nat), cfgWF cfg = true →
    ∃ cfg' l', progFold cfg now cnt l = ((cfg', cnt + l.length), some l')
      ∧ cfgWF cfg' = true := by
  induction l with
  | nil =>
    intro cfg cnt h
    exact ⟨cfg, [], by simp [progFold], h⟩
  | cons a as ih =>
    intro cfg cnt h
    obtain ⟨off, cfg1, hres, hwf1⟩ :=
      _get_channel_offset_total cfg now ((attrGet a "channel").getD "") h
    have hstep : ∃ a', progStep now cfg a = some (a', cfg1) := by
      simp only [progStep]
      rw [hres]
      exact ⟨_, rfl⟩
    obtain ⟨a', hstepEq⟩ := hstep
    obtain ⟨cfg', l', hrec, hwf'⟩ := ih cfg1 (cnt + 1) hwf1
    refine ⟨cfg', a' :: l', ?_, hwf'⟩
    show (match progStep now cfg a with
      | none => ((cfg, cnt), none)
      | some (a', cfg') =>
        match progFold cfg' now (cnt + 1) as with
        | (st, some rest) => (st, some (a' :: rest))
        | (st, none) => (st, none)) = _
    rw [hstepEq]
    dsimp only
    rw [hrec]
    have hlen : cnt + 1 + as.length = cnt + (a :: as).length := by
      simp only [List.length_cons]
      omega
    rw [hlen]

/-- On a well-formed configuration, `_process_xml` on a parsed document
always succeeds; the channel and programme counters advance by the
number of channel and programme records, and the error list is left
untouched — regardless of how many timestamps were malformed or
actually changed. -/
theorem processXml_ok (cfg : TimeshiftCfg) (im vf : Bool) (ver ts : String)
    (now : Nat) (root : XmlNode) (m : Metrics) (h : cfgWF cfg = true) :
    ∃ out cfg', _process_xml cfg im vf ver ts now (.ok root) m
      = (some out,
        { channels_processed :=
            m.channels_processed + (collectTagL "channel" root.children).length,
          programmes_processed :=
            m.programmes_processed + (collectTagL "programme" root.children).length,
          errors := m.errors }, cfg') := by
  obtain ⟨cfg', l', hfold, _⟩ :=
    progFold_total now (collectTagL "programme" root.children) cfg 0 h
  unfold _process_xml
  dsimp only
  rw [hfold]
  dsimp only
  simp only [_validate_xml_true, Bool.not_true, Bool.and_false, Bool.false_eq_true,
    if_false, Nat.zero_add]
  exact ⟨_, cfg', rfl⟩

/-- Model of `EPGProcessor.process`, downstream of the download: a failed download
(`none`) or a `None` from `_process_xml` yields a failed run with no
output written; otherwise `_save_output` persists the document and the
run reports success.  The result is (success flag, written output). -/
def process (cfg : TimeshiftCfg) (include_metadata validate_flag : Bool)
    (version now_iso : String) (now : Nat)
    (download : Option (Except String XmlNode)) (m : Metrics) :
    Bool × Option XmlNode :=
  match download with
  | none => (false, none)
  | some input =>
    match _process_xml cfg include_metadata validate_flag version now_iso now input m with
    | (none, _, _) => (false, none)
    | (some doc, _, _) => (true, some doc)

/-! ## Claim theorems -/

/-- C1: offset resolution obeys strict layering.  When both forced fields
are set and `now` is before the (parsed) expiry, the forced offset is
returned for any channel, with the configuration untouched.  When the
forced layer is absent, resolution returns the per-channel entry when
the channel is a key of the map and the default otherwise.  When the
forced offset has lapsed (`now ≥ expiry`), the call clears both forced
fields in the returned configuration and resolves against the cleared
configuration, and every subsequent call on it returns the
per-channel/default value. -/
theorem C1_offset_resolution_layering (cfg : TimeshiftCfg) (now : Nat) (channel_id : String) :
    (∀ fo fe v, cfg.force_offset = some fo → cfg.force_offset_expiry = some fe →
        fromisoformat fe = some v → now < v →
        _get_channel_offset cfg now channel_id = some (fo, cfg))
    ∧ ((cfg.force_offset = none ∨ cfg.force_offset_expiry = none) →
        _get_channel_offset cfg now channel_id
          = some (lookupOffset cfg channel_id, cfg))
    ∧ (∀ fo fe v, cfg.force_offset = some fo → cfg.force_offset_expiry = some fe →
        fromisoformat fe = some v → ¬ now < v →
        _get_channel_offset cfg now channel_id
          = some (lookupOffset
                { cfg with force_offset := none, force_offset_expiry := none } channel_id,
              { cfg with force_offset := none, force_offset_expiry := none })
        ∧ ∀ (now' : Nat) (ch' : String),
            _get_channel_offset
                { cfg with force_offset := none, force_offset_expiry := none } now' ch'
              = some (lookupOffset
                    { cfg with force_offset := none, force_offset_expiry := none } ch',
                  { cfg with force_offset := none, force_offset_expiry := none }))
    ∧ (∀ p, cfg.per_channel.find? (fun q => q.1 == channel_id) = some p →
        lookupOffset cfg channel_id = p.2)
    ∧ (cfg.per_channel.find? (fun q => q.1 == channel_id) = none →
        lookupOffset cfg channel_id = cfg.default_offset_seconds) := by
  have hempty : fromisoformat "" = none := rfl
  refine ⟨?_, ?_, ?_, ?_, ?_⟩
  · intro fo fe v hfo hfe hiso hlt
    have hne : ¬ fe = "" := by
      intro hc
      rw [hc, hempty] at hiso
      exact Option.noConfusion hiso
    unfold _get_channel_offset
    rw [hfo, hfe]
    dsimp only
    rw [if_neg hne, hiso]
    dsimp only
    rw [if_pos hlt]
  · intro hdisj
    unfold _get_channel_offset
    rcases hdisj with hfo | hfe
    · rw [hfo]
    · rcases hfo : cfg.force_offset with _ | fo <;> rw [hfe]
  · intro fo fe v hfo hfe hiso hge
    have hne : ¬ fe = "" := by
      intro hc
      rw [hc, hempty] at hiso
      exact Option.noConfusion hiso
    constructor
    · unfold _get_channel_offset
      rw [hfo, hfe]
      dsimp only
      rw [if_neg hne, hiso]
      dsimp only
      rw [if_neg hge]
    · intro now' ch'
      unfold _get_channel_offset
      rfl
  · intro p hp
    unfold lookupOffset
    rw [hp]
  · intro hp
    unfold lookupOffset
    rw [hp]

/-- C1 witness: a concrete configuration with a per-channel entry and a
forced offset, exercised before and after expiry. -/
theorem C1_offset_resolution_layering_witness :
    (_get_channel_offset
        ⟨30, [("RTP1", 10)], some 99, some "2024-01-02T00:00:00"⟩ 0 "RTP1"
      = some (99, ⟨30, [("RTP1", 10)], some 99, some "2024-01-02T00:00:00"⟩))
    ∧ (_get_channel_offset ⟨30, [("RTP1", 10)], none, none⟩ 0 "RTP1"
      = some (lookupOffset ⟨30, [("RTP1", 10)], none, none⟩ "RTP1",
          ⟨30, [("RTP1", 10)], none, none⟩))
    ∧ lookupOffset ⟨30, [("RTP1", 10)], none, none⟩ "RTP1" = 10
    ∧ lookupOffset ⟨30, [("RTP1", 10)], none, none⟩ "SIC" = 30 := by
  refine ⟨?_, ?_, ?_, ?_⟩
  · exact (C1_offset_resolution_layering
      ⟨30, [("RTP1", 10)], some 99, some "2024-01-02T00:00:00"⟩ 0 "RTP1").1
      99 "2024-01-02T00:00:00" (toSecs ⟨2024, 1, 2, 0, 0, 0⟩)
      rfl rfl (by decide) (by decide)
  · exact (C1_offset_resolution_layering
      ⟨30, [("RTP1", 10)], none, none⟩ 0 "RTP1").2.1 (Or.inl rfl)
  · exact (C1_offset_resolution_layering
      ⟨30, [("RTP1", 10)], none, none⟩ 0 "RTP1").2.2.2.1 ("RTP1", 10) (by decide)
  · exact (C1_offset_resolution_layering
      ⟨30, [("RTP1", 10)], none, none⟩ 0 "SIC").2.2.2.2 (by decide)

/-- C2 counterexample: at the upper end of the supported `datetime` range
the first shift overflows, is swallowed by the `except` (the input comes
back unchanged), and the second shift then moves the timestamp a day
back: the round trip fails for the valid timestamp `99991231235959` with
the in-range offset `86400`. -/
theorem C2_roundtrip_counterexample :
    _apply_timeshift (_apply_timeshift "99991231235959" 86400) (-86400)
      = "99991230235959"
    ∧ ("99991230235959" : String) ≠ "99991231235959"
    ∧ (⟨9999, 12, 31, 23, 59, 59⟩ : DT).valid = true
    ∧ ((-86400 : Int) ≤ 86400 ∧ (86400 : Int) ≤ 86400) := by
  exact ⟨by decide, by decide, by decide, by decide, by decide⟩

/-- C2 (amended): the round trip `adjust (adjust t n) (-n) = t` holds for
every valid canonical timestamp — rendered components with an optional
`%z`-canonical offset token — and every offset `n ∈ [-86400, 86400]`,
provided the shifted instant stays inside the supported range; the
range is bounded above by `datetime.max` (year 9999, beyond which the
shift raises `OverflowError` and the adjuster falls back to returning
the input) and kept at years ≥ 1000 (below which the platform `strftime`
rendering of `%Y` is not reliably zero-padded). -/
theorem C2_roundtrip_amended (dt : DT) (tz : Option Int) (n : Int)
    (hv : dt.valid = true) (htz : tzGood tz)
    (hn1 : -86400 ≤ n) (hn2 : n ≤ 86400)
    (hy : 1000 ≤ dt.year)
    (hlo : (minPadSecs : Int) ≤ (toSecs dt : Int) + n)
    (hhi : (toSecs dt : Int) + n ≤ (maxSecs : Int)) :
    _apply_timeshift (_apply_timeshift (String.mk (render dt tz)) n) (-n)
      = String.mk (render dt tz) := by
  have h0 : 0 ≤ (toSecs dt : Int) + n := by omega
  have hfst : _apply_timeshift (String.mk (render dt tz)) n
      = String.mk (render (ofSecs ((toSecs dt : Int) + n).toNat) tz) := by
    unfold _apply_timeshift
    rw [show (String.mk (render dt tz)).toList = render dt tz from rfl]
    rw [timeshiftBody_render dt tz n hv htz h0 hhi]
  set k' : Nat := ((toSecs dt : Int) + n).toNat with hk'
  have hk'le : k' ≤ maxSecs := by omega
  have hv' : (ofSecs k').valid = true := ofSecs_valid k' hk'le
  have htSecs : toSecs (ofSecs k') = k' := toSecs_ofSecs k' hk'le
  have hback : (toSecs (ofSecs k') : Int) + (-n) = (toSecs dt : Int) := by
    rw [htSecs]
    omega
  have h0' : 0 ≤ (toSecs (ofSecs k') : Int) + (-n) := by
    rw [hback]
    omega
  have hhi' : (toSecs (ofSecs k') : Int) + (-n) ≤ (maxSecs : Int) := by
    rw [hback]
    exact_mod_cast toSecs_le dt hv
  rw [hfst]
  unfold _apply_timeshift
  rw [show (String.mk (render (ofSecs k') tz)).toList = render (ofSecs k') tz from rfl]
  rw [timeshiftBody_render (ofSecs k') tz (-n) hv' htz h0' hhi']
  have harg : ((toSecs (ofSecs k') : Int) + (-n)).toNat = toSecs dt := by
    omega
  rw [harg, ofSecs_toSecs dt hv]

/-- C2 witness: the round trip at `20240229235959 +0000` with offset 2. -/
theorem C2_roundtrip_amended_witness :
    (⟨2024, 2, 29, 23, 59, 59⟩ : DT).valid = true
    ∧ _apply_timeshift
        (_apply_timeshift (String.mk (render ⟨2024, 2, 29, 23, 59, 59⟩ (some 0))) 2) (-2)
      = String.mk (render ⟨2024, 2, 29, 23, 59, 59⟩ (some 0)) := by
  refine ⟨by decide, ?_⟩
  exact C2_roundtrip_amended ⟨2024, 2, 29, 23, 59, 59⟩ (some 0) 2
    (by decide) (by decide) (by decide) (by decide) (by decide) (by decide) (by decide)

/-- C3 counterexample: `20240101` is shorter than 14 characters, yet the
adjuster does not return it unchanged — the lenient parser reads it as a
compact `YYYYMMDD` date and the shift goes through. -/
theorem C3_soft_failure_counterexample :
    ("20240101" : String).length < 14
    ∧ _apply_timeshift "20240101" 60 = "20240101000100"
    ∧ ("20240101000100" : String) ≠ "20240101" := by
  exact ⟨by decide, by decide, by decide⟩

/-- C3 (amended): the adjuster returns the input unchanged, raising no
exception, exactly on the inputs the underlying lenient date parser
fails to interpret — not on the strict 14-digit criterion of the claim,
since the parser also accepts shorter compact forms such as
`YYYYMMDD`. -/
theorem C3_soft_failure_amended (s : String) (n : Int)
    (h : dateutilParse s.toList = none) :
    _apply_timeshift s n = s := by
  unfold _apply_timeshift timeshiftBody
  rw [h]

/-- C3 witness: a string the parser rejects comes back unchanged. -/
theorem C3_soft_failure_amended_witness :
    dateutilParse ("hello".toList) = none
    ∧ _apply_timeshift "hello" 60 = "hello" :=
  ⟨by decide, C3_soft_failure_amended "hello" 60 (by decide)⟩

/-- C4 counterexample: a trailing named timezone token is not re-appended
verbatim — `UTC` is parsed as offset zero and re-rendered by `%z` as
`+0000`. -/
theorem C4_format_token_counterexample :
    _apply_timeshift "20240101000000 UTC" 2 = "20240101000002 +0000"
    ∧ ("20240101000002 +0000" : String) ≠ "20240101000002 UTC" := by
  exact ⟨by decide, by decide⟩

/-- C4 (amended): on a successful adjustment the shifted date-time is
rendered in the fixed-width 14-digit zero-padded form; when the parsed
input carried a timezone offset, a single space and the `%z` rendering
of that offset follow (so a canonical `±HHMM` token is reproduced
verbatim, while named tokens such as `UTC` are normalized to `+0000`);
without a token nothing is appended.  Calendar arithmetic crosses
day/month/year boundaries correctly; in particular
`adjust("20240229235959 +0000", 2) = "20240301000001 +0000"` and
`adjust("20240101000010", -20) = "20231231235950"`. -/
theorem C4_format_token_amended :
    (∀ (dt : DT) (o n : Int), dt.valid = true →
      o.natAbs < 86400 → o.natAbs % 60 = 0 →
      (minPadSecs : Int) ≤ (toSecs dt : Int) + n →
      (toSecs dt : Int) + n ≤ (maxSecs : Int) →
      ∃ d14 : List Char, d14.length = 14 ∧ d14.all Char.isDigit = true ∧
        _apply_timeshift (String.mk (render dt (some o))) n
          = String.mk (d14 ++ ' ' :: zformat o))
    ∧ (∀ (dt : DT) (n : Int), dt.valid = true →
      (minPadSecs : Int) ≤ (toSecs dt : Int) + n →
      (toSecs dt : Int) + n ≤ (maxSecs : Int) →
      ∃ d14 : List Char, d14.length = 14 ∧ d14.all Char.isDigit = true ∧
        _apply_timeshift (String.mk (render dt none)) n = String.mk d14)
    ∧ _apply_timeshift "20240229235959 +0000" 2 = "20240301000001 +0000"
    ∧ _apply_timeshift "20240101000010" (-20) = "20231231235950" := by
  refine ⟨?_, ?_, by decide, by decide⟩
  · intro dt o n hv h1 h2 hlo hhi
    have h0 : 0 ≤ (toSecs dt : Int) + n := by omega
    refine ⟨renderDT (ofSecs ((toSecs dt : Int) + n).toNat),
      renderDT_length _, renderDT_all_digit _, ?_⟩
    unfold _apply_timeshift
    rw [show (String.mk (render dt (some o))).toList = render dt (some o) from rfl]
    rw [timeshiftBody_render dt (some o) n hv ⟨h1, h2⟩ h0 hhi]
    rfl
  · intro dt n hv hlo hhi
    have h0 : 0 ≤ (toSecs dt : Int) + n := by omega
    refine ⟨renderDT (ofSecs ((toSecs dt : Int) + n).toNat),
      renderDT_length _, renderDT_all_digit _, ?_⟩
    unfold _apply_timeshift
    rw [show (String.mk (render dt none)).toList = render dt none from rfl]
    rw [timeshiftBody_render dt none n hv trivial h0 hhi]
    rfl

/-- C4 witness: both universal parts at a concrete shifted timestamp. -/
theorem C4_format_token_amended_witness :
    (∃ d14 : List Char, d14.length = 14 ∧ d14.all Char.isDigit = true ∧
      _apply_timeshift (String.mk (render ⟨2024, 1, 1, 0, 0, 0⟩ (some 3600))) 30
        = String.mk (d14 ++ ' ' :: zformat 3600))
    ∧ (∃ d14 : List Char, d14.length = 14 ∧ d14.all Char.isDigit = true ∧
      _apply_timeshift (String.mk (render ⟨2024, 1, 1, 0, 0, 0⟩ none)) 30
        = String.mk d14) := by
  constructor
  · exact C4_format_token_amended.1 ⟨2024, 1, 1, 0, 0, 0⟩ 3600 30
      (by decide) (by decide) (by decide) (by decide) (by decide)
  · exact C4_format_token_amended.2.1 ⟨2024, 1, 1, 0, 0, 0⟩ 30
      (by decide) (by decide) (by decide)

/-- C10: the adjuster is total — for every input string and offset it
returns a string and never propagates an exception: either the body
succeeds and its rendering is returned, or the body fails (parse
failure or out-of-range shift) and the original input is returned
unchanged by the enclosing `except`. -/
theorem C10_adjuster_total (s : String) (n : Int) :
    (timeshiftBody s.toList n = none ∧ _apply_timeshift s n = s)
    ∨ (∃ out, timeshiftBody s.toList n = some out
        ∧ _apply_timeshift s n = String.mk out) := by
  rcases h : timeshiftBody s.toList n with _ | out
  · refine Or.inl ⟨rfl, ?_⟩
    unfold _apply_timeshift
    rw [h]
  · refine Or.inr ⟨out, rfl, ?_⟩
    unfold _apply_timeshift
    rw [h]

/-- C5 counterexample: a document with one programme whose `start` is
malformed.  The adjuster's soft-failure path is taken (`timeshiftBody`
fails, the attribute is left unchanged), yet the error list stays empty,
while the only per-programme counter — `programmes_processed` — is
incremented even though nothing was modified.  No "modified" counter
exists. -/
theorem C5_counters_counterexample :
    timeshiftBody ("bad".toList) 30 = none
    ∧ _apply_timeshift "bad" 30 = "bad"
    ∧ _process_xml ⟨30, [], none, none⟩ false true "v" "t" 0
        (.ok (.mk "tv" [] [.mk "programme" [("channel", "X"), ("start", "bad")] []]))
        ⟨0, 0, []⟩
      = (some (.mk "tv" [] [.mk "programme" [("channel", "X"), ("start", "bad")] []]),
         ⟨0, 1, []⟩, ⟨30, [], none, none⟩) :=
  ⟨by decide, by decide, rfl⟩

/-- C5 (amended): the metrics hold no "modified" or per-record error
counter.  On a well-formed configuration, processing a parsed document
always succeeds, `channels_processed` and `programmes_processed` advance
by the number of channel and programme records — each programme counted
once whether or not its timestamps changed or were malformed — and the
`errors` list is left untouched (it is only appended on whole-document
failures). -/
theorem C5_counters_amended (cfg : TimeshiftCfg) (im vf : Bool) (ver ts : String)
    (now : Nat) (root : XmlNode) (m : Metrics) (h : cfgWF cfg = true) :
    ∃ out cfg', _process_xml cfg im vf ver ts now (.ok root) m
      = (some out,
        { channels_processed :=
            m.channels_processed + (collectTagL "channel" root.children).length,
          programmes_processed :=
            m.programmes_processed + (collectTagL "programme" root.children).length,
          errors := m.errors }, cfg') :=
  processXml_ok cfg im vf ver ts now root m h

/-- C5 witness: the amended claim at the single-malformed-record document. -/
theorem C5_counters_amended_witness :
    cfgWF ⟨30, [], none, none⟩ = true
    ∧ ∃ out cfg', _process_xml ⟨30, [], none, none⟩ false true "v" "t" 0
        (.ok (.mk "tv" [] [.mk "programme" [("channel", "X"), ("start", "bad")] []]))
        ⟨5, 7, ["old"]⟩
      = (some out, ⟨5, 8, ["old"]⟩, cfg') := by
  refine ⟨by decide, ?_⟩
  exact C5_counters_amended ⟨30, [], none, none⟩ false true "v" "t" 0
    (.mk "tv" [] [.mk "programme" [("channel", "X"), ("start", "bad")] []])
    ⟨5, 7, ["old"]⟩ (by decide)

/-- C6 counterexample: a feed with one programme whose two timestamps are
malformed — zero records are modified — yet the run is reported
successful and the (unchanged) output is published. -/
theorem C6_zero_modified_counterexample :
    _apply_timeshift "xx" 30 = "xx"
    ∧ _apply_timeshift "yy" 30 = "yy"
    ∧ process ⟨30, [], none, none⟩ false true "v" "t" 0
        (some (.ok (.mk "tv" []
          [.mk "programme" [("channel", "X"), ("start", "xx"), ("stop", "yy")] []])))
        ⟨0, 0, []⟩
      = (true, some (.mk "tv" []
          [.mk "programme" [("channel", "X"), ("start", "xx"), ("stop", "yy")] []])) :=
  ⟨by decide, by decide, rfl⟩

/-- C6 (amended): the number of successfully modified records plays no
role in the run's outcome.  On a well-formed configuration the run over
any parsed document — including one with programmes where nothing gets
modified — succeeds and publishes output; a failed run arises only from
the exception paths (failed download, or an exception while
decompressing/parsing/processing), in which case nothing is written. -/
theorem C6_zero_modified_amended (cfg : TimeshiftCfg) (im vf : Bool)
    (ver ts : String) (now : Nat) (root : XmlNode) (m : Metrics)
    (h : cfgWF cfg = true) :
    ((process cfg im vf ver ts now (some (.ok root)) m).1 = true
      ∧ (process cfg im vf ver ts now (some (.ok root)) m).2.isSome = true)
    ∧ (∀ m', process cfg im vf ver ts now none m' = (false, none))
    ∧ (∀ e m', (_process_xml cfg im vf ver ts now (.error e) m').1 = none
        ∧ process cfg im vf ver ts now (some (.error e)) m' = (false, none)) := by
  obtain ⟨out, cfg', hrun⟩ := processXml_ok cfg im vf ver ts now root m h
  refine ⟨?_, fun m' => rfl, fun e m' => ⟨rfl, rfl⟩⟩
  constructor
  · show (match _process_xml cfg im vf ver ts now (.ok root) m with
      | (none, _, _) => (false, none)
      | (some doc, _, _) => (true, some doc)).1 = true
    rw [hrun]
  · show (match _process_xml cfg im vf ver ts now (.ok root) m with
      | (none, _, _) => (false, none)
      | (some doc, _, _) => (true, some doc)).2.isSome = true
    rw [hrun]
    rfl

/-- C6 witness: the amended claim at the all-malformed one-programme
document. -/
theorem C6_zero_modified_amended_witness :
    cfgWF ⟨30, [], none, none⟩ = true
    ∧ ((process ⟨30, [], none, none⟩ false true "v" "t" 0
        (some (.ok (.mk "tv" []
          [.mk "programme" [("channel", "X"), ("start", "xx"), ("stop", "yy")] []])))
        ⟨0, 0, []⟩).1 = true
      ∧ (process ⟨30, [], none, none⟩ false true "v" "t" 0
        (some (.ok (.mk "tv" []
          [.mk "programme" [("channel", "X"), ("start", "xx"), ("stop", "yy")] []])))
        ⟨0, 0, []⟩).2.isSome = true) := by
  refine ⟨by decide, ?_⟩
  exact (C6_zero_modified_amended ⟨30, [], none, none⟩ false true "v" "t" 0
    (.mk "tv" [] [.mk "programme" [("channel", "X"), ("start", "xx"), ("stop", "yy")] []])
    ⟨0, 0, []⟩ (by decide)).1

/-- C7 counterexample: a well-formed document whose root tag is `foo`
(not the expected feed root) and which contains zero programme records:
validation still reports success, the run does not abort, and output is
published. -/
theorem C7_validation_counterexample :
    (XmlNode.mk "foo" [] [.mk "channel" [("id", "c1")] []]).tag ≠ "tv"
    ∧ collectTagL "programme" (XmlNode.mk "foo" [] [.mk "channel" [("id", "c1")] []]).children
      = []
    ∧ _validate_xml (.mk "foo" [] [.mk "channel" [("id", "c1")] []]) = true
    ∧ (process ⟨30, [], none, none⟩ true true "1.1.0" "t" 0
        (some (.ok (.mk "foo" [] [.mk "channel" [("id", "c1")] []]))) ⟨0, 0, []⟩).1 = true
    ∧ (process ⟨30, [], none, none⟩ true true "1.1.0" "t" 0
        (some (.ok (.mk "foo" [] [.mk "channel" [("id", "c1")] []]))) ⟨0, 0, []⟩).2.isSome
      = true :=
  ⟨by decide, rfl, rfl, by decide, by decide⟩

/-- C7 (amended): `_validate_xml` checks only well-formedness of the
re-serialized document — identically true on serialized trees — and
performs no root-tag or record-count checks; moreover `_process_xml`
discards its result, so a document with a foreign root tag and zero
programme records is processed, reported successful and written out. -/
theorem C7_validation_amended :
    (∀ doc : XmlNode, _validate_xml doc = true)
    ∧ (process ⟨30, [], none, none⟩ true true "1.1.0" "t" 0
        (some (.ok (.mk "foo" [] []))) ⟨0, 0, []⟩).1 = true :=
  ⟨_validate_xml_true, by decide⟩

/-- C8 counterexample: with a forced offset whose expiry string is
unparseable, the exception raised while resolving the offset for the
first programme record is not caught per record: the whole document
processing aborts (`None`), the second record is never visited
(`programmes_processed` stays 0) and the error surfaces in the
function-level handler. -/
theorem C8_per_record_counterexample :
    fromisoformat "notadate" = none
    ∧ _process_xml ⟨30, [], some 10, some "notadate"⟩ false true "v" "t" 0
        (.ok (.mk "tv" []
          [.mk "programme" [("channel", "A"), ("start", "20240101000000")] [],
           .mk "programme" [("channel", "B"), ("start", "20240101000000")] []]))
        ⟨0, 0, []⟩
      = (none, ⟨0, 0, ["offset resolution error"]⟩, ⟨30, [], some 10, some "notadate"⟩) :=
  ⟨rfl, rfl⟩

/-- C8 (amended): there is no per-record exception handling.  An
exception in the processing of one record aborts the whole loop on the
spot, with the counter and configuration frozen as they stood; per-record
tolerance exists only because the timestamp adjuster catches its own
failures internally, so on a well-formed configuration no record —
malformed timestamps included — can throw, and every record is
visited. -/
theorem C8_per_record_amended :
    (∀ (now : Nat) (cfg : TimeshiftCfg) (cnt : Nat) (a : List (String × String))
        (as : List (List (String × String))),
      progStep now cfg a = none →
      progFold cfg now cnt (a :: as) = ((cfg, cnt), none))
    ∧ (∀ (now : Nat) (l : List (List (String × String))) (cfg : TimeshiftCfg) (cnt : Nat),
      cfgWF cfg = true →
      ∃ cfg' l', progFold cfg now cnt l = ((cfg', cnt + l.length), some l')
        ∧ cfgWF cfg' = true) := by
  constructor
  · intro now cfg cnt a as hstep
    show (match progStep now cfg a with
      | none => ((cfg, cnt), none)
      | some (a', cfg') =>
        match progFold cfg' now (cnt + 1) as with
        | (st, some rest) => (st, some (a' :: rest))
        | (st, none) => (st, none)) = ((cfg, cnt), none)
    rw [hstep]
  · exact fun now l => progFold_total now l

/-- C8 witness: the abort branch at a concrete throwing record, and the
no-throw branch at a concrete well-formed configuration. -/
theorem C8_per_record_amended_witness :
    (progStep 0 ⟨30, [], some 10, some "notadate"⟩ [("channel", "A")] = none
      ∧ progFold ⟨30, [], some 10, some "notadate"⟩ 0 0
          [[("channel", "A")], [("channel", "B")]]
        = ((⟨30, [], some 10, some "notadate"⟩, 0), none))
    ∧ (cfgWF ⟨30, [], none, none⟩ = true
      ∧ ∃ cfg' l', progFold ⟨30, [], none, none⟩ 0 0 [[("channel", "A")]]
          = ((cfg', 0 + 1), some l') ∧ cfgWF cfg' = true) := by
  constructor
  · refine ⟨by decide, ?_⟩
    exact C8_per_record_amended.1 0 ⟨30, [], some 10, some "notadate"⟩ 0
      [("channel", "A")] [[("channel", "B")]] (by decide)
  · refine ⟨by decide, ?_⟩
    exact C8_per_record_amended.2 0 [[("channel", "A")]] ⟨30, [], none, none⟩ 0 (by decide)

/-- C9: loading the legacy flat configuration `{"offset_seconds": 45}`
yields the layered shape with `default_offset_seconds = 45`, an empty
per-channel map and cleared forced fields; the flat key is gone, and
re-saving stamps `last_update` while writing the same layered
`timeshift` section — the flat value is preserved as the new
baseline. -/
theorem C9_legacy_migration (now1 now2 : String) :
    jGet (_load_config now1 (some (some (.jobj [("offset_seconds", .jnum 45)]))))
        "timeshift"
      = some (.jobj [("default_offset_seconds", .jnum 45), ("per_channel", .jobj []),
          ("force_offset", .jnull), ("force_offset_expiry", .jnull)])
    ∧ jGet (_load_config now1 (some (some (.jobj [("offset_seconds", .jnum 45)]))))
        "offset_seconds" = none
    ∧ jGet (_save_config now2
          (_load_config now1 (some (some (.jobj [("offset_seconds", .jnum 45)])))))
        "timeshift"
      = some (.jobj [("default_offset_seconds", .jnum 45), ("per_channel", .jobj []),
          ("force_offset", .jnull), ("force_offset_expiry", .jnull)])
    ∧ jGet (_save_config now2
          (_load_config now1 (some (some (.jobj [("offset_seconds", .jnum 45)])))))
        "offset_seconds" = none
    ∧ jGet (_save_config now2
          (_load_config now1 (some (some (.jobj [("offset_seconds", .jnum 45)])))))
        "last_update" = some (.jstr now2) :=
  ⟨rfl, rfl, rfl, rfl, rfl⟩

end EPG
